import Mathlib

/-!
Verification of the block composition and (de)serialization engine of
`django-streamfield-w` (the `streamfield` package): a shallow embedding of
the block classes in `streamfield/blocks/base.py`, `field_block.py`,
`list_block.py` and of the model field in `streamfield/model_fields.py`,
followed by theorems about serialization round-trips, list edit
reconciliation, validation error collection, declarative child collection,
definition equality, defaults, idempotence, name diagnostics and input
normalization.

Python values are modelled by the inductive type `Val` (the fragment of
Python values these code paths manipulate), exceptions by `Except` with
error type `PyErr` (for built-in exceptions) or a message/params payload
(for `django.core.exceptions.ValidationError`).
-/

namespace Streamfield

/-- The fragment of Python values handled by the embedded code paths:
`None`, `int`, `str`, `datetime.date` (abstracted to its ordinal),
a Django model instance (Django model equality compares class and primary
key, so within one target model an instance is determined by its `pk`),
and `list` (the repository's `ListValue` wrapper is a `Sequence` whose
structural content is its `data` list, so it is likewise modelled by
`vlist`). -/
inductive Val : Type where
  | vnone : Val
  | vint (n : Int) : Val
  | vstr (s : String) : Val
  | vdate (d : Nat) : Val
  | vmodel (pk : Int) : Val
  | vlist (xs : List Val) : Val
  deriving Repr, Inhabited

mutual

/-- Boolean equality on `Val`, elementwise on lists; this is Python `==`
on the modelled fragment (mixed-kind comparisons are `False`, never an
error, and Django model equality is primary-key equality). -/
def Val.beq : Val → Val → Bool
  | .vnone, .vnone => true
  | .vint a, .vint b => a == b
  | .vstr a, .vstr b => a == b
  | .vdate a, .vdate b => a == b
  | .vmodel a, .vmodel b => a == b
  | .vlist xs, .vlist ys => Val.beqList xs ys
  | _, _ => false

/-- Elementwise equality of value lists, companion to `Val.beq`. -/
def Val.beqList : List Val → List Val → Bool
  | [], [] => true
  | x :: xs, y :: ys => Val.beq x y && Val.beqList xs ys
  | _, _ => false

end

mutual

theorem Val.beq_iff : ∀ a b : Val, Val.beq a b = true ↔ a = b
  | .vnone, b => by cases b <;> simp [Val.beq]
  | .vint a, b => by cases b <;> simp [Val.beq]
  | .vstr a, b => by cases b <;> simp [Val.beq]
  | .vdate a, b => by cases b <;> simp [Val.beq]
  | .vmodel a, b => by cases b <;> simp [Val.beq]
  | .vlist xs, b => by
    cases b <;> simp [Val.beq]
    exact Val.beqList_iff xs _

theorem Val.beqList_iff : ∀ xs ys : List Val, Val.beqList xs ys = true ↔ xs = ys
  | [], ys => by cases ys <;> simp [Val.beqList]
  | x :: xs, ys => by
    cases ys with
    | nil => simp [Val.beqList]
    | cons y ys =>
      simp only [Val.beqList, Bool.and_eq_true, List.cons.injEq]
      exact and_congr (Val.beq_iff x y) (Val.beqList_iff xs ys)

end

instance : DecidableEq Val := fun a b => decidable_of_iff _ (Val.beq_iff a b)

/-- Built-in Python exceptions raised by the embedded code paths. -/
inductive PyErr : Type where
  | typeError : PyErr
  | valueError : PyErr
  | attributeError : PyErr
  deriving DecidableEq, Repr

/-- Python `str()` of a value. Only its totality matters: no theorem below
depends on the exact rendering of non-string values. -/
def pyStr : Val → String
  | .vnone => "None"
  | .vint n => toString n
  | .vstr s => s
  | .vdate d => "date(" ++ toString d ++ ")"
  | .vmodel pk => "instance(" ++ toString pk ++ ")"
  | .vlist _ => "[...]"

/-- A Python list comprehension `[f(item) for item in value]` over a list:
apply `f` to each element left to right, propagating the first exception. -/
def mapEach (f : Val → Except ε Val) : List Val → Except ε (List Val)
  | [] => .ok []
  | x :: xs =>
    match f x with
    | .error e => .error e
    | .ok y =>
      match mapEach f xs with
      | .error e => .error e
      | .ok ys => .ok (y :: ys)

/-- If each element individually round-trips through `pv` (serialize) then
`tp` (deserialize), the whole list does: `mapEach pv` succeeds and
`mapEach tp` undoes it. -/
theorem mapEach_roundtrip (pv tp : Val → Except ε Val) :
    ∀ xs : List Val, (∀ x ∈ xs, (pv x).bind tp = .ok x) →
      ∃ ps, mapEach pv xs = .ok ps ∧ mapEach tp ps = .ok xs := by
  intro xs
  induction xs with
  | nil => intro _; exact ⟨[], rfl, rfl⟩
  | cons x xs ih =>
    intro h
    have hx := h x (List.mem_cons_self x xs)
    obtain ⟨ps, hps, hback⟩ := ih (fun a ha => h a (List.mem_cons_of_mem x ha))
    cases hpx : pv x with
    | error e => rw [hpx] at hx; simp [Except.bind] at hx
    | ok p =>
      rw [hpx] at hx
      simp only [Except.bind] at hx
      exact ⟨p :: ps, by simp [mapEach, hpx, hps], by simp [mapEach, hx, hback]⟩

/-- If a function is idempotent in the Kleisli sense, then a successful
`mapEach` is a fixed point: mapping again returns the same list. -/
theorem mapEach_idem (f : Val → Except ε Val) (hf : ∀ v, (f v).bind f = f v) :
    ∀ xs ys : List Val, mapEach f xs = .ok ys → mapEach f ys = .ok ys := by
  intro xs
  induction xs with
  | nil =>
    intro ys h
    simp only [mapEach] at h
    cases h
    rfl
  | cons x xs ih =>
    intro ys h
    cases hfx : f x with
    | error e => simp [mapEach, hfx] at h
    | ok y =>
      cases hm : mapEach f xs with
      | error e => simp [mapEach, hfx, hm] at h
      | ok ts =>
        simp only [mapEach, hfx, hm] at h
        cases h
        have hfy : f y = .ok y := by
          have h2 := hf x
          rw [hfx] at h2
          simpa [Except.bind] using h2
        simp [mapEach, hfy, ih ts hm]

/-! Stable sorting.

CPython's `list.sort` is a stable ascending sort driven by `<` comparisons;
a `TypeError` raised by any comparison it performs propagates to the caller.
`stableSortBy` is a pure stable insertion sort (each element is inserted
after any element it is not `<`-below, so equal elements keep their original
relative order, exactly the stability contract of `list.sort`); `pySort` is
the same algorithm over a fallible comparison.  Whenever the comparison is
an everywhere-defined strict total order the two agree with `list.sort`,
and on a two-element list `pySort` performs exactly the single comparison
CPython performs, so its success or failure there is CPython's. -/

/-- Insert `x` into `l`, placing it before the first element `y` with
`lt x y`; stable for elements that compare equal. -/
def insertBy (lt : α → α → Bool) (x : α) : List α → List α
  | [] => [x]
  | y :: ys => if lt x y then x :: y :: ys else y :: insertBy lt x ys

/-- Stable ascending insertion sort with strict comparison `lt`. -/
def stableSortBy (lt : α → α → Bool) (xs : List α) : List α :=
  xs.foldl (fun acc x => insertBy lt x acc) []

theorem mem_insertBy (lt : α → α → Bool) (x : α) :
    ∀ l (a : α), a ∈ insertBy lt x l ↔ a = x ∨ a ∈ l := by
  intro l
  induction l with
  | nil => intro a; simp [insertBy]
  | cons y ys ih =>
    intro a
    by_cases h : lt x y = true
    · simp [insertBy, h]
    · simp [insertBy, h, ih]
      tauto

theorem insertBy_perm (lt : α → α → Bool) (x : α) :
    ∀ l, (insertBy lt x l).Perm (x :: l) := by
  intro l
  induction l with
  | nil => simp [insertBy]
  | cons y ys ih =>
    by_cases h : lt x y = true
    · simp [insertBy, h]
    · simp only [insertBy, h, if_false, Bool.false_eq_true]
      exact (List.Perm.cons y ih).trans (List.Perm.swap x y ys)

theorem stableSortBy_perm (lt : α → α → Bool) (xs : List α) :
    (stableSortBy lt xs).Perm xs := by
  have go : ∀ (l acc : List α),
      (l.foldl (fun acc x => insertBy lt x acc) acc).Perm (l ++ acc) := by
    intro l
    induction l with
    | nil => intro acc; simp
    | cons x l ih =>
      intro acc
      have h1 := ih (insertBy lt x acc)
      have h2 : (l ++ insertBy lt x acc).Perm (l ++ x :: acc) :=
        List.Perm.append_left l (insertBy_perm lt x acc)
      have h3 : (x :: (l ++ acc)).Perm (l ++ x :: acc) := List.perm_middle.symm
      simpa using (h1.trans h2).trans h3.symm
  simpa using go xs []

/-- Inserting into a list that is pairwise ordered by the reflexive closure
of `lt` keeps it so, provided `lt`-incomparability is transitive enough:
we only need it for linear-order-like comparisons, stated here for a
comparison induced by a linear order key. -/
theorem insertBy_pairwise (key : α → Int) (x : α) :
    ∀ l, l.Pairwise (fun a b => key a ≤ key b) →
      (insertBy (fun a b => decide (key a < key b)) x l).Pairwise
        (fun a b => key a ≤ key b) := by
  intro l
  induction l with
  | nil => intro _; simp [insertBy]
  | cons y ys ih =>
    intro hp
    rw [List.pairwise_cons] at hp
    obtain ⟨hy, hys⟩ := hp
    by_cases h : key x < key y
    · simp only [insertBy, decide_eq_true_eq, if_pos h]
      rw [List.pairwise_cons]
      constructor
      · intro b hb
        rcases List.mem_cons.mp hb with rfl | hb
        · exact le_of_lt h
        · exact le_trans (le_of_lt h) (hy b hb)
      · rw [List.pairwise_cons]; exact ⟨hy, hys⟩
    · simp only [insertBy, decide_eq_true_eq, if_neg h]
      rw [List.pairwise_cons]
      constructor
      · intro b hb
        rcases (mem_insertBy _ x ys b).mp hb with rfl | hb
        · exact le_of_not_lt h
        · exact hy b hb
      · exact ih hys

theorem stableSortBy_pairwise (key : α → Int) (xs : List α) :
    (stableSortBy (fun a b => decide (key a < key b)) xs).Pairwise
      (fun a b => key a ≤ key b) := by
  have go : ∀ (l acc : List α), acc.Pairwise (fun a b => key a ≤ key b) →
      (l.foldl (fun acc x => insertBy (fun a b => decide (key a < key b)) x acc)
          acc).Pairwise (fun a b => key a ≤ key b) := by
    intro l
    induction l with
    | nil => intro acc h; simpa using h
    | cons x l ih =>
      intro acc h
      exact ih _ (insertBy_pairwise key x acc h)
  exact go xs [] (by simp)

mutual

/-- Python `<` on the modelled value fragment: defined within `int`, `str`,
`date` and (lexicographically) `list`; every other pair — in particular any
comparison involving `None` or a Django model instance, which defines no
ordering — raises `TypeError`. -/
def pyValLt : Val → Val → Except PyErr Bool
  | .vint a, .vint b => .ok (decide (a < b))
  | .vstr a, .vstr b => .ok (decide (a < b))
  | .vdate a, .vdate b => .ok (decide (a < b))
  | .vlist xs, .vlist ys => pyValListLt xs ys
  | _, _ => .error .typeError

/-- Python `<` on lists: find the first elementwise mismatch with `==`
and compare there; a prefix is below any proper extension. -/
def pyValListLt : List Val → List Val → Except PyErr Bool
  | [], [] => .ok false
  | [], _ :: _ => .ok true
  | _ :: _, [] => .ok false
  | x :: xs, y :: ys => if x = y then pyValListLt xs ys else pyValLt x y

end

/-- Python `<` on the `(order_index, child_value)` tuples built by
`ListBlock.value_from_datadict`: tuple comparison finds the first component
mismatch with `==` and compares there with `<`, so tied integer order
indexes fall through to a comparison of the child values themselves. -/
def pyPairLt (a b : Int × Val) : Except PyErr Bool :=
  if a.1 ≠ b.1 then .ok (decide (a.1 < b.1))
  else if a.2 ≠ b.2 then pyValLt a.2 b.2
  else .ok false

/-- Stable insertion into a sorted list with a fallible comparison,
propagating the first raised exception. -/
def pyInsert (lt : α → α → Except PyErr Bool) (x : α) :
    List α → Except PyErr (List α)
  | [] => .ok [x]
  | y :: ys =>
    match lt x y with
    | .error e => .error e
    | .ok true => .ok (x :: y :: ys)
    | .ok false =>
      match pyInsert lt x ys with
      | .error e => .error e
      | .ok zs => .ok (y :: zs)

/-- One step of the fallible sort: skip once an exception has been raised,
otherwise insert the next element. -/
def pySortStep (lt : α → α → Except PyErr Bool)
    (acc : Except PyErr (List α)) (x : α) : Except PyErr (List α) :=
  match acc with
  | .error e => .error e
  | .ok m => pyInsert lt x m

/-- The model of `list.sort` with a fallible comparison. -/
def pySort (lt : α → α → Except PyErr Bool) (xs : List α) :
    Except PyErr (List α) :=
  xs.foldl (pySortStep lt) (.ok [])

theorem pyInsert_of_ne_fst (x : Int × Val) :
    ∀ l, (∀ a ∈ l, x.1 ≠ a.1) →
      pyInsert pyPairLt x l =
        .ok (insertBy (fun a b : Int × Val => decide (a.1 < b.1)) x l) := by
  intro l
  induction l with
  | nil => intro _; rfl
  | cons y ys ih =>
    intro h
    have hxy : x.1 ≠ y.1 := h y (List.mem_cons_self y ys)
    have hcmp : pyPairLt x y = .ok (decide (x.1 < y.1)) := by
      simp [pyPairLt, hxy]
    by_cases hlt : x.1 < y.1
    · simp [pyInsert, hcmp, insertBy, hlt]
    · have hrec := ih (fun a ha => h a (List.mem_cons_of_mem y ha))
      simp [pyInsert, hcmp, insertBy, hlt, hrec]

/-- When the retained order indexes are pairwise distinct, the fallible
sort succeeds and agrees with the pure stable sort by order index. -/
theorem pySort_of_pairwise_ne (xs : List (Int × Val))
    (h : xs.Pairwise (fun a b => a.1 ≠ b.1)) :
    pySort pyPairLt xs =
      .ok (stableSortBy (fun a b : Int × Val => decide (a.1 < b.1)) xs) := by
  have go : ∀ (l acc : List (Int × Val)),
      l.Pairwise (fun a b => a.1 ≠ b.1) →
      (∀ a ∈ acc, ∀ b ∈ l, a.1 ≠ b.1) →
      (l.foldl (pySortStep pyPairLt) (Except.ok acc)) =
        .ok (l.foldl (fun acc x =>
          insertBy (fun a b : Int × Val => decide (a.1 < b.1)) x acc) acc) := by
    intro l
    induction l with
    | nil => intro acc _ _; rfl
    | cons x l ih =>
      intro acc hl hcross
      rw [List.pairwise_cons] at hl
      obtain ⟨hx, hl⟩ := hl
      have hstep : pyInsert pyPairLt x acc =
          .ok (insertBy (fun a b : Int × Val => decide (a.1 < b.1)) x acc) :=
        pyInsert_of_ne_fst x acc
          (fun a ha => (hcross a ha x (List.mem_cons_self x l)).symm)
      have hcross' : ∀ a ∈ insertBy (fun a b : Int × Val => decide (a.1 < b.1)) x acc,
          ∀ b ∈ l, a.1 ≠ b.1 := by
        intro a ha b hb
        rcases (mem_insertBy _ x acc a).mp ha with rfl | ha
        · exact hx b hb
        · exact hcross a ha b (List.mem_cons_of_mem x hb)
      simpa [pySortStep, hstep] using ih _ hl hcross'
  simpa [pySort, stableSortBy] using go xs [] h (by simp)

/-! Embedding of `streamfield/blocks/list_block.py` (`ListBlock`).

`ListBlock` holds one child block; its child-dependent methods are
parameterized here by the child's corresponding function.  `ListValue` is a
`Sequence` wrapper whose structural content is its `data` list, so block
values appear as `Val.vlist`. -/

namespace ListBlock

/-- `ListBlock.to_python`: `ListValue(self, [child.to_python(item) for item
in value])`; iterating a non-sequence raises `TypeError`. -/
def to_python (childToPython : Val → Except PyErr Val) : Val → Except PyErr Val
  | .vlist xs => (mapEach childToPython xs).map .vlist
  | _ => .error .typeError

/-- `ListBlock.get_prep_value`: `[child.get_prep_value(item) for item in
value]`; iterating a non-sequence raises `TypeError`. -/
def get_prep_value (childPrep : Val → Except PyErr Val) : Val → Except PyErr Val
  | .vlist xs => (mapEach childPrep xs).map .vlist
  | _ => .error .typeError

/-- One iteration of the loop in `ListBlock.clean`: on success the cleaned
child value is appended to `result` and `None` to `errors`; on
`ValidationError` the error (wrapped in a one-element `ErrorList`, which is
truthy, here `some`) is appended to `errors`. -/
def cleanStep (childClean : Val → Except ε Val)
    (acc : List Val × List (Option ε)) (childVal : Val) :
    List Val × List (Option ε) :=
  match childClean childVal with
  | .ok c => (acc.1 ++ [c], acc.2 ++ [none])
  | .error e => (acc.1, acc.2 ++ [some e])

/-- `ListBlock.clean`: clean every element, collecting one error-or-null
per position, and raise a single `ValidationError` whose `params` is that
positional list if any position failed; otherwise return the cleaned
elements in order.  The error type mirrors `ValidationError(message,
params=errors)`. -/
def clean (childClean : Val → Except ε Val) (value : List Val) :
    Except (String × List (Option ε)) (List Val) :=
  let acc := value.foldl (cleanStep childClean) ([], [])
  if acc.2.any (fun oe => oe.isSome) then
    .error ("Validation error in ListBlock", acc.2)
  else
    .ok acc.1

/-- The error-or-null outcome of cleaning one element. -/
def cleanErr (childClean : Val → Except ε Val) (x : Val) : Option ε :=
  match childClean x with
  | .ok _ => none
  | .error e => some e

theorem clean_foldl (childClean : Val → Except ε Val) :
    ∀ (value : List Val) (r : List Val) (e : List (Option ε)),
      value.foldl (cleanStep childClean) (r, e) =
        (r ++ value.filterMap (fun x => (childClean x).toOption),
         e ++ value.map (cleanErr childClean)) := by
  intro value
  induction value with
  | nil => intro r e; simp
  | cons x xs ih =>
    intro r e
    cases hx : childClean x with
    | ok c =>
      simp [List.foldl_cons, cleanStep, hx, ih, cleanErr, Except.toOption]
    | error err =>
      simp [List.foldl_cons, cleanStep, hx, ih, cleanErr, Except.toOption]

/-- `ListBlock.get_default`: `self.meta.default`, which `__init__` sets to
a one-element list holding the child's default when no `default` meta
option was configured. -/
def get_default (metaDefault : Option (List Val)) (childDefault : Val) :
    List Val :=
  match metaDefault with
  | some d => d
  | none => [childDefault]

/-- The form data consumed by `ListBlock.value_from_datadict` under one
prefix: the parsed `prefix-count` value, and for each index the truthiness
of `prefix-i-deleted`, the parsed `prefix-i-order` value and the child
value recovered from `prefix-i-value`. -/
structure Datadict where
  count : Nat
  deleted : Nat → Bool
  order : Nat → Int
  childValue : Nat → Val

/-- The `values_with_indexes` list: indexes `0 .. count-1`, entries whose
deleted flag is truthy skipped, the rest paired as `(order, child value)`. -/
def retained (d : Datadict) : List (Int × Val) :=
  (List.range d.count).filterMap fun i =>
    if d.deleted i then none else some (d.order i, d.childValue i)

/-- `ListBlock.value_from_datadict`: build `values_with_indexes`, sort it
with `list.sort` (tuple comparison), and return the values. -/
def value_from_datadict (d : Datadict) : Except PyErr (List Val) :=
  (pySort pyPairLt (retained d)).map (List.map Prod.snd)

end ListBlock

/-! Embedding of `streamfield/blocks/base.py` (`Block` and the declarative
metaclass). -/

namespace Block

/-- `Block.to_python`: the base implementation returns the value itself. -/
def to_python (value : Val) : Val := value

/-- `Block.get_prep_value`: the base implementation returns the value
itself. -/
def get_prep_value (value : Val) : Val := value

/-- A `django.core.checks.Error` as built by `Block._check_name`: the
message, the hint (the third and fourth errors pass it as the second
positional argument, which is the same `hint` parameter) and the check id.
The `obj` argument (`kwargs.get('field', self)`, the object the error is
reported against) carries no diagnostic content and is omitted. -/
structure Diagnostic where
  msg : String
  hint : String
  id : String
  deriving DecidableEq, Repr

/-- The diagnostic appended when the name is empty. -/
def emptyNameDiag (name : String) : Diagnostic :=
  ⟨"Block name '" ++ name ++ "' is invalid", "Block name cannot be empty",
   "streamfield.block.E001"⟩

/-- The diagnostic appended when the name contains a space. -/
def spaceNameDiag (name : String) : Diagnostic :=
  ⟨"Block name '" ++ name ++ "' is invalid", "Block names cannot contain spaces",
   "streamfield.block.E001"⟩

/-- The diagnostic appended when the name contains a dash. -/
def dashNameDiag (name : String) : Diagnostic :=
  ⟨"Block name '" ++ name ++ "' is invalid", "Block names cannot contain dashes",
   "streamfield.block.E001"⟩

/-- The diagnostic appended when the name begins with a digit. -/
def digitNameDiag (name : String) : Diagnostic :=
  ⟨"Block name '" ++ name ++ "' is invalid", "Block names cannot begin with a digit",
   "streamfield.block.E001"⟩

/-- Python `c in s` for a single-character needle: membership of the
character in the string. -/
def strContainsChar (s : String) (c : Char) : Bool := s.data.contains c

/-- Python `self.name and self.name[0].isdigit()`: false for the empty
string, else whether the first character is a digit. -/
def firstCharIsDigit (name : String) : Bool :=
  match name.data with
  | [] => false
  | c :: _ => c.isDigit

/-- `Block._check_name`: four independent conditions, each appending its
own `checks.Error` (the `%r` interpolation of the name is modelled as
quoting it). -/
def checkName (name : String) : List Diagnostic :=
  (if name = "" then [emptyNameDiag name] else [])
    ++ (if strContainsChar name ' ' = true then [spaceNameDiag name] else [])
    ++ (if strContainsChar name '-' = true then [dashNameDiag name] else [])
    ++ (if firstCharIsDigit name = true then [digitNameDiag name] else [])

/-- `Block.check`: the base hook returns no diagnostics; `_check_name` is
only run when some container calls it explicitly. -/
def check : List Diagnostic := []

/-- The definition state relevant to `Block.__eq__`: the bound `name`, the
identity of the class (its module and class name), the module's
`DECONSTRUCT_ALIASES` entry for the class if any, and the constructor
`args`/`kwargs` captured by `Block.__new__`. -/
structure Data where
  name : String
  moduleName : String
  clsName : String
  aliasPath : Option String
  args : List Val
  kwargs : List (String × Val)
  deriving DecidableEq, Repr

/-- `Block.deconstruct`: the alias path if the module's
`DECONSTRUCT_ALIASES` has an entry for the class, else
`module.ClassName`, together with the captured constructor arguments.
(The `ValueError` branch for classes not reachable from their module is
outside this model.) -/
def deconstruct (b : Data) : String × List Val × List (String × Val) :=
  (match b.aliasPath with
   | some p => p
   | none => b.moduleName ++ "." ++ b.clsName,
   b.args, b.kwargs)

/-- An argument of `Block.__eq__`: another block, or any non-`Block`
object (identified by some code irrelevant to the comparison). -/
inductive Operand where
  | block (b : Data) : Operand
  | nonBlock (id : Nat) : Operand
  deriving DecidableEq, Repr

/-- `Block.__eq__`: `False` for any non-`Block` operand, else name
equality combined with `deconstruct()` equality. -/
def eq (b : Data) : Operand → Bool
  | .nonBlock _ => false
  | .block o => decide (b.name = o.name) && decide (deconstruct b = deconstruct o)

end Block

namespace DeclarativeSubBlocks

/-- A value bound to a class-body attribute, as the metaclass sees it: a
constructed `Block` instance (carrying its `creation_counter`), a bare
`Block` subclass (not an instance — `isinstance(value, Block)` is false
for it), the `None` placeholder, or anything else. -/
inductive Attr where
  | inst (counter : Nat) : Attr
  | blockCls (counter : Nat) : Attr
  | pyNone : Attr
  | other : Attr
  deriving DecidableEq, Repr

/-- The entries of `declared_blocks` / `base_blocks`. -/
inductive Blk where
  | inst (counter : Nat) : Blk
  | cls (counter : Nat) : Blk
  deriving DecidableEq, Repr

/-- One class in the hierarchy, reduced to its class-body attributes in
declaration order. -/
structure PyClass where
  rawAttrs : List (String × Attr)

/-- The `current_blocks` collection: attributes that are `Block`
instances, in declaration order, then sorted stably by
`creation_counter` (Python `list.sort` with a key is a stable ascending
sort; integer keys always compare, so no fallible comparison arises). -/
def declared_blocks (c : PyClass) : List (String × Blk) :=
  stableSortBy (fun a b : String × Blk =>
      match a.2, b.2 with
      | .inst ca, .inst cb => decide (ca < cb)
      | _, _ => false)
    (c.rawAttrs.filterMap fun kv =>
      match kv.2 with
      | .inst ctr => some (kv.1, Blk.inst ctr)
      | _ => none)

/-- The class `__dict__` after the metaclass popped the collected block
attributes (`attrs.pop(key)`), which is what the shadowing loop iterates. -/
def residualAttrs (c : PyClass) : List (String × Attr) :=
  c.rawAttrs.filter fun kv =>
    match kv.2 with
    | .inst _ => false
    | _ => true

/-- `OrderedDict` assignment: an existing key keeps its position and gets
the new value; a new key is appended. -/
def odSet (od : List (String × Blk)) (k : String) (v : Blk) :
    List (String × Blk) :=
  if od.any (fun kv => kv.1 = k) then
    od.map (fun kv => if kv.1 = k then (k, v) else kv)
  else od ++ [(k, v)]

/-- `OrderedDict.update` with another ordered mapping. -/
def odUpdate (od newEntries : List (String × Blk)) : List (String × Blk) :=
  newEntries.foldl (fun acc kv => odSet acc kv.1 kv.2) od

/-- `OrderedDict.pop`. -/
def odPop (od : List (String × Blk)) (k : String) : List (String × Blk) :=
  od.filter fun kv => kv.1 ≠ k

/-- The step of the `base_blocks` loop for one base class: merge the
base's `declared_blocks`, then pop every name the base re-declares with a
`None` placeholder. -/
def collectStep (od : List (String × Blk)) (base : PyClass) :
    List (String × Blk) :=
  let od := odUpdate od (declared_blocks base)
  (residualAttrs base).foldl (fun od kv =>
      if kv.2 = Attr.pyNone ∧ od.any (fun e => e.1 = kv.1) then odPop od kv.1
      else od) od

/-- `b() if (not(isinstance(b, Block))) else b`: bare classes are
instantiated with no arguments. -/
def ensureInstance : Blk → Blk
  | .inst ctr => .inst ctr
  | .cls ctr => .inst ctr

/-- `DeclarativeSubBlocksMetaclass.__new__`'s `base_blocks`: walk the MRO
oldest ancestor first (`reversed(new_class.__mro__)`; classes declaring no
blocks, such as `object`, contribute nothing), merging each class's
`declared_blocks` and applying `None`-shadowing, then force every entry to
a constructed instance. -/
def base_blocks (mro : List PyClass) : List (String × Blk) :=
  (mro.foldl collectStep []).map fun kv => (kv.1, ensureInstance kv.2)

end DeclarativeSubBlocks

/-! Embedding of the leaf blocks used by the claims
(`streamfield/blocks/field_block.py`). -/

namespace CharField

/-- Cleaning by the wrapped `django.forms.CharField` with the options
`CharBlock` passes (no `min_length`/`max_length`, default `strip=True`,
default `empty_value=''`): `to_python` maps the empty values `None`, `''`
and `[]` to `''` and stringifies then strips anything else; `validate`
raises `required` when the result is empty and the field is required. -/
def clean (required : Bool) (v : Val) : Except String Val :=
  let s : String :=
    match v with
    | .vnone => ""
    | .vstr t => t.trim
    | .vlist [] => ""
    | w => (pyStr w).trim
  if required ∧ s = "" then .error "This field is required."
  else .ok (.vstr s)

end CharField

namespace CharBlock

/-- `FieldBlock.clean` for `CharBlock` delegates to the wrapped
`CharField` (`value_for_form` and `value_from_form` are identities on
field blocks). -/
def clean (required : Bool) (v : Val) : Except String Val :=
  CharField.clean required v

/-- `CharBlock.get_default`: `FieldBlock.Meta.default = None`. -/
def get_default : Val := .vnone

end CharBlock

namespace DateBlock

/-- `DateBlock.to_python`: `None` and `datetime.date` values pass through;
strings go through `django.utils.dateparse.parse_date`, which returns a
date, returns `None` for an unrecognised format, or raises `ValueError`
for a well-formed but invalid date (the parser is a parameter `pd`);
any other value makes `parse_date` raise `TypeError`. -/
def to_python (pd : String → Except PyErr (Option Nat)) :
    Val → Except PyErr Val
  | .vnone => .ok .vnone
  | .vdate d => .ok (.vdate d)
  | .vstr s =>
    (pd s).map fun r =>
      match r with
      | some d => Val.vdate d
      | none => Val.vnone
  | _ => .error .typeError

end DateBlock

namespace ModelChoiceBlock

/-- The database rows of the target model, as a predicate on primary keys
(`target_model.objects.get(pk=...)` succeeds exactly on these). -/
def dbHas (db : Int → Bool) (pk : Int) : Bool := db pk

/-- `ModelChoiceBlock.to_python`: `None` passes through; an id is looked
up, and a `DoesNotExist` degrades to `None`; a non-id serialized value
makes the primary-key lookup raise. -/
def to_python (db : Int → Bool) : Val → Except PyErr Val
  | .vnone => .ok .vnone
  | .vint pk => .ok (if db pk then Val.vmodel pk else Val.vnone)
  | _ => .error .valueError

/-- `ModelChoiceBlock.get_prep_value`: `None` passes through, a model
instance serializes to its `pk`; accessing `.pk` on anything else raises
`AttributeError`. -/
def get_prep_value : Val → Except PyErr Val
  | .vnone => .ok .vnone
  | .vmodel pk => .ok (.vint pk)
  | _ => .error .attributeError

/-- A valid native value for `ModelChoiceBlock`: `None`, or an instance
whose primary key resolves in the database. -/
def isValidValue (db : Int → Bool) : Val → Bool
  | .vnone => true
  | .vmodel pk => db pk
  | _ => false

end ModelChoiceBlock

/-! Embedding of `streamfield/model_fields.py` (`StreamField`).

`StreamValue` and `StreamBlock` live in the repository's stream-block
module, which is not among the provided sources; `StreamValue` is
modelled from the spec and the root block's methods are parameters. -/

/-- Modelled from the spec: `StreamValue` (defined in the repository's
stream-block module, not under the provided sources) is an ordered
sequence of `(type-name, value)` pairs carrying an optional `raw_text`
fallback for legacy non-JSON content; as a `Sequence` it is falsy exactly
when the pair sequence is empty.  The code path under test only checks
that the names are the declared variant names later, so pairs are kept as
raw value pairs. -/
structure StreamValue where
  streamData : List (Val × Val)
  rawText : Option String
  deriving DecidableEq, Repr

namespace StreamField

/-- The possible arguments of `StreamField.to_python`, split by the
`isinstance` tests the code performs: `None`, a string, an existing
`StreamValue`, or any other value. -/
inductive Input where
  | pynone : Input
  | pystr (s : String) : Input
  | pystream (sv : StreamValue) : Input
  | pyother (v : Val) : Input
  deriving DecidableEq, Repr

/-- Python tuple unpacking `(x, y) = element` as used by
`[None for (x, y) in value]`: succeeds on two-element sequences (including
two-character strings, which Python happily unpacks); anything else raises
(`TypeError`/`ValueError`, both caught by the caller). -/
def unpack2 : Val → Option (Val × Val)
  | .vlist [x, y] => some (x, y)
  | .vstr s =>
    match s.toList with
    | [c₁, c₂] => some (.vstr (String.mk [c₁]), .vstr (String.mk [c₂]))
    | _ => none
  | _ => none

/-- The probe `[None for (x, y) in value]`: `none` when the value is not
iterable or some element does not unpack into a pair. -/
def iterPairs : Val → Option (List (Val × Val))
  | .vlist xs => xs.mapM unpack2
  | _ => none

/-- `StreamField.to_python`.  `loads` models `json.loads` (`none` for a
`ValueError`, `some .vnone` for the literal string `'null'`);
`rootToPython` is the root `StreamBlock.to_python` (not among the provided
sources), reached only for successfully parsed non-null JSON. -/
def to_python (loads : String → Option Val)
    (rootToPython : Val → Except PyErr StreamValue) :
    Input → Except PyErr StreamValue
  | .pynone => .ok ⟨[], none⟩
  | .pystream sv => .ok sv
  | .pystr s =>
    if s = "" then .ok ⟨[], none⟩
    else
      match loads s with
      | none => .ok ⟨[], some s⟩
      | some .vnone => .ok ⟨[], none⟩
      | some j => rootToPython j
  | .pyother v =>
    match iterPairs v with
    | none => .error .typeError
    | some ps => .ok ⟨ps, none⟩

/-- `StreamField.get_prep_value` on a `StreamValue`: an empty value with a
non-`None` `raw_text` returns that raw text verbatim; otherwise
`json.dumps(self.root_block.get_prep_value(value), cls=DjangoJSONEncoder)`
(`rootPrep` and `dumps` model the root `StreamBlock.get_prep_value` — not
among the provided sources — and the JSON encoder). -/
def get_prep_value (rootPrep : StreamValue → Val) (dumps : Val → String)
    (value : StreamValue) : String :=
  match value.rawText with
  | some t => if value.streamData.isEmpty then t else dumps (rootPrep value)
  | none => dumps (rootPrep value)

end StreamField

/-! Claim theorems. -/

instance {ε α : Type} [DecidableEq ε] [DecidableEq α] :
    DecidableEq (Except ε α) := fun a b =>
  match a, b with
  | .ok x, .ok y =>
    if h : x = y then isTrue (by rw [h]) else isFalse (by simp [h])
  | .error x, .error y =>
    if h : x = y then isTrue (by rw [h]) else isFalse (by simp [h])
  | .ok _, .error _ => isFalse (fun h => Except.noConfusion h)
  | .error _, .ok _ => isFalse (fun h => Except.noConfusion h)

/-- C1: serialization round-trip.  For the base block (whose `to_python`
and `get_prep_value` are identities, inherited by the simple leaf blocks),
for `ModelChoiceBlock` on every valid native value (`None`, or an instance
whose primary key resolves in the database), for `DateBlock` on every
native value (`None` or a date; its `get_prep_value` is the inherited
identity), and for `ListBlock` whenever every element round-trips through
the child block, `to_python (get_prep_value v)` returns a value
structurally equal to `v`. -/
theorem serialization_roundtrip (db : Int → Bool)
    (pd : String → Except PyErr (Option Nat))
    (cpv ctp : Val → Except PyErr Val) (u v dv : Val) (xs : List Val)
    (hv : ModelChoiceBlock.isValidValue db v = true)
    (hd : dv = .vnone ∨ ∃ d, dv = .vdate d)
    (hxs : ∀ x ∈ xs, (cpv x).bind ctp = .ok x) :
    Block.to_python (Block.get_prep_value u) = u
    ∧ (ModelChoiceBlock.get_prep_value v).bind (ModelChoiceBlock.to_python db)
        = .ok v
    ∧ DateBlock.to_python pd (Block.get_prep_value dv) = .ok dv
    ∧ (ListBlock.get_prep_value cpv (.vlist xs)).bind (ListBlock.to_python ctp)
        = .ok (.vlist xs) := by
  refine ⟨rfl, ?_, ?_, ?_⟩
  · cases v with
    | vnone => rfl
    | vmodel pk =>
      simp only [ModelChoiceBlock.isValidValue] at hv
      simp [ModelChoiceBlock.get_prep_value, ModelChoiceBlock.to_python,
            Except.bind, hv]
    | vint n => simp [ModelChoiceBlock.isValidValue] at hv
    | vstr s => simp [ModelChoiceBlock.isValidValue] at hv
    | vdate d => simp [ModelChoiceBlock.isValidValue] at hv
    | vlist l => simp [ModelChoiceBlock.isValidValue] at hv
  · rcases hd with rfl | ⟨d, rfl⟩ <;>
      simp [Block.get_prep_value, DateBlock.to_python]
  · obtain ⟨ps, hps, hback⟩ := mapEach_roundtrip cpv ctp xs hxs
    simp [ListBlock.get_prep_value, ListBlock.to_python, hps, hback,
          Except.bind, Except.map]

/-- Witness for C1 at a one-row database, a resolvable instance, a date
and a two-element list of model-choice values. -/
theorem serialization_roundtrip_witness :
    Block.to_python (Block.get_prep_value (.vstr "h")) = .vstr "h"
    ∧ (ModelChoiceBlock.get_prep_value (.vmodel 1)).bind
        (ModelChoiceBlock.to_python (fun pk => pk == 1)) = .ok (.vmodel 1)
    ∧ DateBlock.to_python (fun _ => .ok none)
        (Block.get_prep_value (.vdate 737060)) = .ok (.vdate 737060)
    ∧ (ListBlock.get_prep_value ModelChoiceBlock.get_prep_value
          (.vlist [.vmodel 1, .vnone])).bind
        (ListBlock.to_python (ModelChoiceBlock.to_python (fun pk => pk == 1)))
        = .ok (.vlist [.vmodel 1, .vnone]) :=
  serialization_roundtrip (fun pk => pk == 1) (fun _ => .ok none)
    ModelChoiceBlock.get_prep_value
    (ModelChoiceBlock.to_python (fun pk => pk == 1))
    (.vstr "h") (.vmodel 1) (.vdate 737060) [.vmodel 1, .vnone]
    (by decide) (Or.inr ⟨737060, rfl⟩) (by decide)

/-- C4: `ListBlock.clean` cleans every element (it never stops at the
first failure); when no element fails it returns the cleaned elements in
order, and when some element fails it raises exactly one
`ValidationError` whose `params` is the positional list of one
error-or-null per element, nulls marking passing positions. -/
theorem listBlock_clean_collects_all_errors (childClean : Val → Except ε Val)
    (xs : List Val) :
    ListBlock.clean childClean xs =
      if (xs.map (ListBlock.cleanErr childClean)).any Option.isSome then
        .error ("Validation error in ListBlock",
                xs.map (ListBlock.cleanErr childClean))
      else .ok (xs.filterMap fun x => (childClean x).toOption) := by
  simp only [ListBlock.clean, ListBlock.clean_foldl, List.nil_append]

/-- C6: two block definitions compare equal exactly when their bound
names are equal and their reconstruction signatures (as returned by
`deconstruct`: resolved class path plus captured constructor
args/kwargs) are equal; a non-`Block` operand always compares unequal. -/
theorem block_eq_iff_name_and_signature (b o : Block.Data) (i : Nat) :
    (Block.eq b (.block o) = true ↔
      b.name = o.name ∧ Block.deconstruct b = Block.deconstruct o)
    ∧ Block.eq b (.nonBlock i) = false := by
  constructor
  · simp [Block.eq]
  · rfl

/-- C8: `to_python` is idempotent: for `DateBlock` on every input
(already-native dates and `None` pass through unchanged), and for
`ListBlock` whenever the child's `to_python` is idempotent, applying
`to_python` to its own result changes nothing. -/
theorem to_python_idempotent (pd : String → Except PyErr (Option Nat))
    (c : Val → Except PyErr Val) (hc : ∀ v, (c v).bind c = c v) (v w : Val) :
    (DateBlock.to_python pd v).bind (DateBlock.to_python pd)
        = DateBlock.to_python pd v
    ∧ (ListBlock.to_python c w).bind (ListBlock.to_python c)
        = ListBlock.to_python c w := by
  constructor
  · cases v with
    | vnone => rfl
    | vdate d => rfl
    | vstr s =>
      cases hpd : pd s with
      | error e => simp [DateBlock.to_python, hpd, Except.bind, Except.map]
      | ok r =>
        cases r <;> simp [DateBlock.to_python, hpd, Except.bind, Except.map]
    | vint n => rfl
    | vmodel pk => rfl
    | vlist l => rfl
  · cases w with
    | vlist xs =>
      cases hm : mapEach c xs with
      | error e => simp [ListBlock.to_python, hm, Except.bind, Except.map]
      | ok ys =>
        simp [ListBlock.to_python, hm, mapEach_idem c hc xs ys hm,
              Except.bind, Except.map]
    | vnone => rfl
    | vint n => rfl
    | vstr s => rfl
    | vdate d => rfl
    | vmodel pk => rfl

/-- Witness for C8 at an unparseable date string and a one-element list,
with the identity child conversion (which is idempotent). -/
theorem to_python_idempotent_witness :
    (DateBlock.to_python (fun _ => .ok none) (.vstr "nope")).bind
        (DateBlock.to_python (fun _ => .ok none))
      = DateBlock.to_python (fun _ => .ok none) (.vstr "nope")
    ∧ (ListBlock.to_python (fun x => .ok x) (.vlist [.vint 3])).bind
        (ListBlock.to_python (fun x => .ok x))
      = ListBlock.to_python (fun x => .ok x) (.vlist [.vint 3]) :=
  to_python_idempotent (fun _ => .ok none) (fun x => .ok x) (fun _ => rfl)
    (.vstr "nope") (.vlist [.vint 3])

/-- C10: `StreamField.to_python` on a value that is not `None`, not the
empty string, not a `StreamValue` and not a string raises `TypeError`
unless the value decomposes into `(name, value)` pairs, in which case it
is wrapped as a stream value; no other shape is normalized. -/
theorem streamfield_rejects_undecomposable (loads : String → Option Val)
    (rtp : Val → Except PyErr StreamValue) (v w : Val)
    (ps : List (Val × Val))
    (hv : StreamField.iterPairs v = none)
    (hw : StreamField.iterPairs w = some ps) :
    StreamField.to_python loads rtp (.pyother v) = .error .typeError
    ∧ StreamField.to_python loads rtp (.pyother w) = .ok ⟨ps, none⟩ := by
  constructor <;> simp [StreamField.to_python, hv, hw]

/-- Witness for C10 at an integer (not decomposable) and a singleton list
of pairs (decomposable). -/
theorem streamfield_rejects_undecomposable_witness :
    StreamField.to_python (fun _ => none) (fun _ => .ok ⟨[], none⟩)
        (.pyother (.vint 5)) = .error .typeError
    ∧ StreamField.to_python (fun _ => none) (fun _ => .ok ⟨[], none⟩)
        (.pyother (.vlist [.vlist [.vstr "head", .vstr "x"]]))
        = .ok ⟨[(.vstr "head", .vstr "x")], none⟩ :=
  streamfield_rejects_undecomposable (fun _ => none) (fun _ => .ok ⟨[], none⟩)
    (.vint 5) (.vlist [.vlist [.vstr "head", .vstr "x"]])
    [(.vstr "head", .vstr "x")] rfl rfl

/-- C2 (amended): `ListBlock.value_from_datadict` drops every entry whose
deleted flag is set and, whenever the retained order indexes are pairwise
distinct, sorts the remaining entries stably by their order index
ascending and returns the child values in that order; in particular the
input `[(order=2,del=false,val=A),(order=0,del=false,val=B),
(order=1,del=true,val=C)]` yields `[B, A]`.  (On tied order indexes the
tuple sort falls through to comparing child values and can raise
`TypeError`; see the counterexample.) -/
theorem list_edit_reconciliation (d : ListBlock.Datadict) (vA vB vC : Val)
    (hdist : (ListBlock.retained d).Pairwise (fun a b => a.1 ≠ b.1)) :
    ListBlock.value_from_datadict d =
      .ok ((stableSortBy (fun a b : Int × Val => decide (a.1 < b.1))
              (ListBlock.retained d)).map Prod.snd)
    ∧ (stableSortBy (fun a b : Int × Val => decide (a.1 < b.1))
          (ListBlock.retained d)).Pairwise (fun a b => a.1 ≤ b.1)
    ∧ (stableSortBy (fun a b : Int × Val => decide (a.1 < b.1))
          (ListBlock.retained d)).Perm (ListBlock.retained d)
    ∧ ListBlock.value_from_datadict
        ⟨3, fun i => i == 2,
         fun i => if i = 0 then 2 else if i = 1 then 0 else 1,
         fun i => if i = 0 then vA else if i = 1 then vB else vC⟩
        = .ok [vB, vA] := by
  refine ⟨?_, ?_, ?_, ?_⟩
  · unfold ListBlock.value_from_datadict
    rw [pySort_of_pairwise_ne _ hdist]
    rfl
  · exact stableSortBy_pairwise (fun a : Int × Val => a.1) _
  · exact stableSortBy_perm _ _
  · rfl

/-- Witness for C2 at the claim's own example input with string values. -/
theorem list_edit_reconciliation_witness :
    ListBlock.value_from_datadict
        ⟨3, fun i => i == 2,
         fun i => if i = 0 then 2 else if i = 1 then 0 else 1,
         fun i => if i = 0 then .vstr "A" else if i = 1 then .vstr "B"
                  else .vstr "C"⟩
      = .ok [.vstr "B", .vstr "A"] :=
  (list_edit_reconciliation
    ⟨3, fun i => i == 2,
     fun i => if i = 0 then 2 else if i = 1 then 0 else 1,
     fun i => if i = 0 then .vstr "A" else if i = 1 then .vstr "B"
              else .vstr "C"⟩
    (.vstr "A") (.vstr "B") (.vstr "C") (by decide)).2.2.2

/-- Counterexample for C2 as stated: with two retained entries whose order
indexes tie and whose child values are Django model instances (which
define no ordering), the tuple sort compares the values and raises
`TypeError` — tied order indexes do crash here. -/
theorem list_edit_tied_orders_crash_cex :
    ListBlock.value_from_datadict
        ⟨2, fun _ => false, fun _ => 0,
         fun i => if i = 0 then .vmodel 1 else .vmodel 2⟩
      = .error .typeError := by decide

/-- C3 (amended): for every non-empty string that fails to parse as JSON,
`StreamField.to_python` returns an empty stream value carrying the
original string as `raw_text` (it does not raise), and
`StreamField.get_prep_value` applied to that value returns the original
string verbatim, whatever the root block's serializer and the JSON
encoder do.  (The empty string also fails to parse as JSON but is
normalized by the earlier `value == ''` branch without `raw_text`; see
the counterexample.) -/
theorem stream_legacy_fallback (loads : String → Option Val)
    (rtp : Val → Except PyErr StreamValue)
    (rootPrep : StreamValue → Val) (dumps : Val → String) (s : String)
    (hne : s ≠ "") (hfail : loads s = none) :
    StreamField.to_python loads rtp (.pystr s) = .ok ⟨[], some s⟩
    ∧ StreamField.get_prep_value rootPrep dumps ⟨[], some s⟩ = s := by
  constructor
  · simp [StreamField.to_python, hne, hfail]
  · simp [StreamField.get_prep_value]

/-- Witness for C3 at the claim's example string. -/
theorem stream_legacy_fallback_witness :
    StreamField.to_python (fun _ => none) (fun _ => .ok ⟨[], none⟩)
        (.pystr "not json at all") = .ok ⟨[], some "not json at all"⟩
    ∧ StreamField.get_prep_value (fun _ => .vlist []) (fun _ => "[]")
        ⟨[], some "not json at all"⟩ = "not json at all" :=
  stream_legacy_fallback (fun _ => none) (fun _ => .ok ⟨[], none⟩)
    (fun _ => .vlist []) (fun _ => "[]") "not json at all"
    (by decide) rfl

/-- Counterexample for C3 as stated: the empty string fails to parse as
JSON (`json.loads('')` raises `ValueError`), yet `to_python('')` takes
the `value == ''` branch and returns an empty stream value with no
`raw_text`, whose serialization is the JSON dump of the empty stream
(`"[]"`), not the original string.  The concrete `loads`, `rootPrep` and
`dumps` arguments record the behavior of `json.loads`, the root block and
`json.dumps` at exactly these inputs. -/
theorem stream_legacy_fallback_empty_string_cex :
    StreamField.to_python (fun _ => none) (fun _ => .ok ⟨[], none⟩)
        (.pystr "") = .ok ⟨[], none⟩
    ∧ (StreamValue.mk [] none).rawText ≠ some ""
    ∧ StreamField.get_prep_value (fun _ => .vlist []) (fun _ => "[]")
        ⟨[], none⟩ ≠ "" := by
  refine ⟨rfl, by decide, by decide⟩

/-- C7 (amended): `ListBlock.get_default` never fails: when no `default`
meta option is configured it is the one-element list holding the child's
default; and the default is accepted by the same block's `clean` provided
the child's `clean` accepts each element of it (which fails for the
unconfigured required `CharBlock` child; see the counterexample). -/
theorem listblock_default_totality (metaDefault : Option (List Val))
    (childDefault : Val) (childClean : Val → Except ε Val)
    (h : ∀ x ∈ ListBlock.get_default metaDefault childDefault,
          ListBlock.cleanErr childClean x = none) :
    ListBlock.get_default none childDefault = [childDefault]
    ∧ ∃ ys, ListBlock.clean childClean
        (ListBlock.get_default metaDefault childDefault) = .ok ys := by
  refine ⟨rfl, ?_⟩
  simp only [ListBlock.clean, ListBlock.clean_foldl, List.nil_append]
  rw [if_neg]
  · exact ⟨_, rfl⟩
  · simp only [List.any_eq_true, List.mem_map, not_exists, not_and]
    rintro o ⟨x, hx, rfl⟩
    rw [h x hx]
    simp

/-- Witness for C7 with a non-required `CharBlock` child, whose `clean`
accepts the `None` default. -/
theorem listblock_default_totality_witness :
    ListBlock.get_default none CharBlock.get_default = [Val.vnone]
    ∧ ∃ ys, ListBlock.clean (CharBlock.clean false)
        (ListBlock.get_default none CharBlock.get_default) = .ok ys :=
  listblock_default_totality none CharBlock.get_default
    (CharBlock.clean false) (by decide)

/-- Counterexample for C7 as stated: `ListBlock(CharBlock())` (required
child, no configured defaults) has default `[None]`, and its own `clean`
rejects that default with the required-field error, so the default is not
accepted by `clean`. -/
theorem listblock_default_rejected_cex :
    ListBlock.get_default none CharBlock.get_default = [Val.vnone]
    ∧ ListBlock.clean (CharBlock.clean true)
        (ListBlock.get_default none CharBlock.get_default)
      = .error ("Validation error in ListBlock",
                [some "This field is required."]) := by
  exact ⟨rfl, by decide⟩

/-- C5: declarative child collection.  For a base class declaring
children `a` then `b` (creation order `ca < cb`) and a subclass adding
`c` and shadowing `a` with a `None` placeholder, walking the hierarchy
oldest ancestor first resolves the child order to `[b, c]`; and in
general every resolved entry is a constructed block instance. -/
theorem declarative_child_collection (a b c : String) (ca cb cc : Nat)
    (hab : a ≠ b) (hac : a ≠ c) (hbc : b ≠ c) (hcnt : ca < cb) :
    DeclarativeSubBlocks.base_blocks
        [⟨[(a, .inst ca), (b, .inst cb)]⟩, ⟨[(a, .pyNone), (c, .inst cc)]⟩]
      = [(b, .inst cb), (c, .inst cc)]
    ∧ ∀ mro : List DeclarativeSubBlocks.PyClass,
        ∀ kv ∈ DeclarativeSubBlocks.base_blocks mro,
          ∃ n, kv.2 = DeclarativeSubBlocks.Blk.inst n := by
  constructor
  · have hba : ¬ (b = a) := fun h => hab h.symm
    have hca : ¬ (c = a) := fun h => hac h.symm
    have hcb : ¬ (c = b) := fun h => hbc h.symm
    have hlt : ¬ (cb < ca) := by omega
    simp [DeclarativeSubBlocks.base_blocks, DeclarativeSubBlocks.collectStep,
          DeclarativeSubBlocks.declared_blocks,
          DeclarativeSubBlocks.residualAttrs, DeclarativeSubBlocks.odUpdate,
          DeclarativeSubBlocks.odSet, DeclarativeSubBlocks.odPop,
          DeclarativeSubBlocks.ensureInstance, stableSortBy, insertBy,
          hab, hac, hbc, hba, hca, hcb, hlt]
  · intro mro kv hkv
    simp only [DeclarativeSubBlocks.base_blocks, List.mem_map] at hkv
    obtain ⟨kv', _, rfl⟩ := hkv
    cases kv'.2 <;> exact ⟨_, rfl⟩

/-- Witness for C5 at concrete names and creation counters. -/
theorem declarative_child_collection_witness :
    DeclarativeSubBlocks.base_blocks
        [⟨[("a", .inst 0), ("b", .inst 1)]⟩, ⟨[("a", .pyNone), ("c", .inst 2)]⟩]
      = [("b", .inst 1), ("c", .inst 2)] :=
  (declarative_child_collection "a" "b" "c" 0 1 2
    (by decide) (by decide) (by decide) (by decide)).1

/-- Two diagnostics with different hints are different. -/
theorem diag_ne_of_hint_ne {d₁ d₂ : Block.Diagnostic}
    (h : d₁.hint ≠ d₂.hint) : d₁ ≠ d₂ :=
  fun heq => h (congrArg Block.Diagnostic.hint heq)

/-- Membership in a conditional singleton forces the element. -/
theorem mem_ite_singleton {c : Prop} [Decidable c] {α : Type} {d x : α}
    (h : d ∈ if c then [x] else ([] : List α)) : d = x := by
  by_cases hc : c
  · rw [if_pos hc] at h
    exact List.mem_singleton.mp h
  · rw [if_neg hc] at h
    cases h

/-- C9 (amended): `Block._check_name` produces, for each offending
condition on a block's name — empty, contains a space, contains a dash,
begins with a digit — its own diagnostic whose message quotes the invalid
name, the four diagnostics are pairwise distinct and none has an empty
message; the base `check()` itself returns no diagnostics (a container
must call `_check_name` for names to be validated; see the
counterexample). -/
theorem checkName_distinct_diagnostics (name : String) :
    (name = "" → Block.emptyNameDiag name ∈ Block.checkName name)
    ∧ (Block.strContainsChar name ' ' = true →
        Block.spaceNameDiag name ∈ Block.checkName name)
    ∧ (Block.strContainsChar name '-' = true →
        Block.dashNameDiag name ∈ Block.checkName name)
    ∧ (Block.firstCharIsDigit name = true →
        Block.digitNameDiag name ∈ Block.checkName name)
    ∧ (∀ d ∈ Block.checkName name, d.msg ≠ "")
    ∧ List.Pairwise (fun d₁ d₂ : Block.Diagnostic => d₁ ≠ d₂)
        [Block.emptyNameDiag name, Block.spaceNameDiag name,
         Block.dashNameDiag name, Block.digitNameDiag name] := by
  have hmsg : ∀ s : String, "Block name '" ++ s ++ "' is invalid" ≠ "" := by
    intro s h
    have h2 := congrArg String.length h
    rw [String.length_append, String.length_append] at h2
    have h3 : String.length "Block name '" = 12 := rfl
    have h4 : String.length "' is invalid" = 12 := rfl
    have h5 : String.length "" = 0 := rfl
    omega
  refine ⟨?_, ?_, ?_, ?_, ?_, ?_⟩
  · intro h
    refine List.mem_append_left _ (List.mem_append_left _
      (List.mem_append_left _ ?_))
    rw [if_pos h]; exact List.mem_singleton_self _
  · intro h
    refine List.mem_append_left _ (List.mem_append_left _
      (List.mem_append_right _ ?_))
    rw [if_pos h]; exact List.mem_singleton_self _
  · intro h
    refine List.mem_append_left _ (List.mem_append_right _ ?_)
    rw [if_pos h]; exact List.mem_singleton_self _
  · intro h
    refine List.mem_append_right _ ?_
    rw [if_pos h]; exact List.mem_singleton_self _
  · intro d hd
    rcases List.mem_append.mp hd with hd | hd
    rotate_left
    · rw [mem_ite_singleton hd]; exact hmsg name
    rcases List.mem_append.mp hd with hd | hd
    rotate_left
    · rw [mem_ite_singleton hd]; exact hmsg name
    rcases List.mem_append.mp hd with hd | hd
    · rw [mem_ite_singleton hd]; exact hmsg name
    · rw [mem_ite_singleton hd]; exact hmsg name
  · refine List.Pairwise.cons ?_ (List.Pairwise.cons ?_
      (List.Pairwise.cons ?_ (List.pairwise_singleton _ _)))
    · intro d hd
      rcases List.mem_cons.mp hd with rfl | hd
      · exact diag_ne_of_hint_ne
          (show ("Block name cannot be empty" : String)
              ≠ "Block names cannot contain spaces" by decide)
      rcases List.mem_cons.mp hd with rfl | hd
      · exact diag_ne_of_hint_ne
          (show ("Block name cannot be empty" : String)
              ≠ "Block names cannot contain dashes" by decide)
      rcases List.mem_cons.mp hd with rfl | hd
      · exact diag_ne_of_hint_ne
          (show ("Block name cannot be empty" : String)
              ≠ "Block names cannot begin with a digit" by decide)
      cases hd
    · intro d hd
      rcases List.mem_cons.mp hd with rfl | hd
      · exact diag_ne_of_hint_ne
          (show ("Block names cannot contain spaces" : String)
              ≠ "Block names cannot contain dashes" by decide)
      rcases List.mem_cons.mp hd with rfl | hd
      · exact diag_ne_of_hint_ne
          (show ("Block names cannot contain spaces" : String)
              ≠ "Block names cannot begin with a digit" by decide)
      cases hd
    · intro d hd
      rcases List.mem_cons.mp hd with rfl | hd
      · exact diag_ne_of_hint_ne
          (show ("Block names cannot contain dashes" : String)
              ≠ "Block names cannot begin with a digit" by decide)
      cases hd

/-- Witness for C9 at the empty name and at a name with a leading digit,
a space and a dash. -/
theorem checkName_distinct_diagnostics_witness :
    Block.emptyNameDiag "" ∈ Block.checkName ""
    ∧ Block.spaceNameDiag "9 -x" ∈ Block.checkName "9 -x"
    ∧ Block.dashNameDiag "9 -x" ∈ Block.checkName "9 -x"
    ∧ Block.digitNameDiag "9 -x" ∈ Block.checkName "9 -x" :=
  ⟨(checkName_distinct_diagnostics "").1 rfl,
   (checkName_distinct_diagnostics "9 -x").2.1 (by decide),
   (checkName_distinct_diagnostics "9 -x").2.2.1 (by decide),
   (checkName_distinct_diagnostics "9 -x").2.2.2.1 (by decide)⟩

/-- Counterexample for C9 as stated: the base `check()` hook returns no
diagnostics at all (and `_check_name` has no caller among the provided
sources), so a block whose name is empty yields nothing from `check()`,
even though `_check_name` would report it. -/
theorem check_returns_no_name_diagnostics_cex :
    Block.check = ([] : List Block.Diagnostic)
    ∧ Block.checkName "" ≠ [] := ⟨rfl, by decide⟩

end Streamfield
